import Mathlib

/-!
Shallow embedding of the generic firmware-container core of fwupd
(`src/libfwupdplugin/fu-firmware.c`) and proofs about the frozen claims.

Byte buffers (`GBytes`) and input streams (`GInputStream`) are modelled as
`List Nat` values; a stream's size is its length, and creating a partial
input stream is list slicing.  `GError` is a code plus a message string.
Machine integers (`gsize`, `guint64`) are modelled as `Nat` (the C code
never relies on wraparound in the functions embedded here); where a value
is printed through a `(guint)` cast we reduce it modulo `2 ^ 32`.
-/

set_option maxRecDepth 8000

namespace FwupdSpec

/-- Error codes of the FwupdError domain used by the firmware core. -/
inductive ErrCode where
  | notFound
  | notSupported
  | invalidData
  | invalidFile
  | internalErr
  | nothingToDo
deriving DecidableEq, Repr

/-- A GError: an error domain code plus a human-readable message. -/
structure GErr where
  code : ErrCode
  message : String
deriving DecidableEq, Repr

/-- Lowercase hex rendering of a number, as printf %x produces. -/
def natToHex (n : Nat) : String :=
  String.mk (Nat.toDigits 16 n)

/-- Model of GLib g_format_size for the byte range used in messages here;
no claim inspects these strings. -/
def gFormatSize (n : Nat) : String :=
  toString n ++ " bytes"

/-- The string small occurs contiguously inside big. -/
def strContains (big small : String) : Prop :=
  ∃ l r, big.data = l ++ small.data ++ r

theorem strContains_refl (s : String) : strContains s s :=
  ⟨[], [], by simp⟩

theorem string_data_append (a b : String) : (a ++ b).data = a.data ++ b.data := rfl

theorem strContains_trans {a b c : String} (h1 : strContains a b) (h2 : strContains b c) :
    strContains a c := by
  obtain ⟨l1, r1, h1⟩ := h1
  obtain ⟨l2, r2, h2⟩ := h2
  exact ⟨l1 ++ l2, r2 ++ r1, by simp [h1, h2]⟩

theorem strContains_append_left (a b : String) : strContains (a ++ b) b :=
  ⟨a.data, [], by simp [string_data_append]⟩

theorem strContains_append_right (a b : String) : strContains (a ++ b) a :=
  ⟨[], b.data, by simp [string_data_append]⟩

/-! ### Firmware flags

The numeric values live in `fu-firmware.h` (not part of the sources given);
all that matters is that each flag is a distinct bit. -/

def FU_FIRMWARE_FLAG_DEDUPE_ID : Nat := 1
def FU_FIRMWARE_FLAG_DEDUPE_IDX : Nat := 2
def FU_FIRMWARE_FLAG_HAS_CHECKSUM : Nat := 4
def FU_FIRMWARE_FLAG_DONE_PARSE : Nat := 16
def FU_FIRMWARE_FLAG_ALWAYS_SEARCH : Nat := 64
def FU_FIRMWARE_FLAG_HAS_CHECK_COMPATIBLE : Nat := 256

def FU_FIRMWARE_PARSE_FLAG_NO_SEARCH : Nat := 8
def FU_FIRMWARE_PARSE_FLAG_CACHE_BLOB : Nat := 16
def FU_FIRMWARE_PARSE_FLAG_CACHE_STREAM : Nat := 32

/-- fu-firmware.c line 57: `#define FU_FIRMWARE_IMAGE_DEPTH_MAX 50`. -/
def FU_FIRMWARE_IMAGE_DEPTH_MAX : Nat := 50

/-- Search ceiling for the magic scan, defined in fu-firmware.h (32 MiB). -/
def FU_FIRMWARE_SEARCH_MAGIC_BUFSZ_MAX : Nat := 0x2000000

/-- One pending byte patch: fu-firmware.c lines 59-62. -/
structure FuFirmwarePatch where
  offset : Nat
  blob : List Nat
deriving DecidableEq, Repr

/-- The scalar fields of FuFirmwarePrivate (fu-firmware.c lines 28-50).
The `parent` back-reference is a weak pointer used by no claim and is not
modelled; `images` is split out below so the tree type can be recursive. -/
structure FuFirmwareData where
  flags : Nat := 0
  version : Option String := none
  bytes : Option (List Nat) := none
  stream : Option (List Nat) := none
  streamsz : Nat := 0
  alignment : Nat := 0
  id : Option String := none
  filename : Option String := none
  idx : Nat := 0
  addr : Nat := 0
  offset : Nat := 0
  size : Nat := 0
  size_max : Nat := 0
  images_max : Nat := 0
  depth : Nat := 0
  patches : Option (List FuFirmwarePatch) := none
deriving DecidableEq, Repr

/-- A FuFirmware object: its private data plus the ordered child images. -/
inductive FuFirmware where
  | mk (data : FuFirmwareData) (images : List FuFirmware)

def FuFirmware.data : FuFirmware → FuFirmwareData
  | .mk d _ => d

def FuFirmware.images : FuFirmware → List FuFirmware
  | .mk _ imgs => imgs

def FuFirmware.withData (s : FuFirmware) (f : FuFirmwareData → FuFirmwareData) : FuFirmware :=
  .mk (f s.data) s.images

@[simp] theorem FuFirmware.data_mk (d : FuFirmwareData) (imgs : List FuFirmware) :
    (FuFirmware.mk d imgs).data = d := rfl

@[simp] theorem FuFirmware.images_mk (d : FuFirmwareData) (imgs : List FuFirmware) :
    (FuFirmware.mk d imgs).images = imgs := rfl

@[simp] theorem FuFirmware.data_withData (s : FuFirmware) (f : FuFirmwareData → FuFirmwareData) :
    (s.withData f).data = f s.data := rfl

@[simp] theorem FuFirmware.images_withData (s : FuFirmware) (f : FuFirmwareData → FuFirmwareData) :
    (s.withData f).images = s.images := rfl

/-- fu_firmware_new: a freshly constructed object; GObject zero-initializes
every private field. -/
def fu_firmware_new : FuFirmware := .mk {} []

/-- fu_firmware_has_flag (lines 99-105): `(priv->flags & flag) > 0`. -/
def fu_firmware_has_flag (self : FuFirmware) (flag : Nat) : Bool :=
  decide (0 < self.data.flags &&& flag)

/-- fu_firmware_add_flag (lines 80-86): `priv->flags |= flag`. -/
def fu_firmware_add_flag (self : FuFirmware) (flag : Nat) : FuFirmware :=
  self.withData fun d => { d with flags := d.flags ||| flag }

/-- fu_firmware_set_bytes (lines 561-575): early-returns when the very same
blob is already set (pointer comparison in C, which implies value equality),
otherwise stores the blob and clears the input stream. -/
def fu_firmware_set_bytes (self : FuFirmware) (bytes : List Nat) : FuFirmware :=
  if self.data.bytes = some bytes then self
  else self.withData fun d => { d with bytes := some bytes, stream := none }

/-- fu_firmware_set_stream (lines 719-733): records the stream size eagerly
(the size of a list-modelled stream is always known, so the size query
cannot fail) and stores the stream; the byte buffer is not touched. -/
def fu_firmware_set_stream (self : FuFirmware) (stream : Option (List Nat)) : FuFirmware :=
  self.withData fun d =>
    { d with streamsz := match stream with | some l => l.length | none => 0,
             stream := stream }

/-- fu_input_stream_read_bytes over a list-modelled stream: count bytes
starting at an offset. -/
def listReadBytes (stream : List Nat) (offset count : Nat) : List Nat :=
  (stream.drop offset).take count

/-- fu_firmware_get_bytes (lines 591-610). -/
def fu_firmware_get_bytes (self : FuFirmware) : Except GErr (List Nat) :=
  match self.data.bytes with
  | some b => .ok b
  | none =>
    match self.data.stream with
    | some st =>
      if self.data.streamsz = 0 then
        .error ⟨.invalidData, "stream size unknown"⟩
      else
        .ok (listReadBytes st 0 self.data.streamsz)
    | none => .error ⟨.notFound, "no payload set"⟩

/-- Modelled from the spec: fu_memcpy_safe (fu-mem.c, not among the given
sources) copies n bytes into the destination at an offset, failing when the
replacement range falls outside the destination buffer bounds. -/
def fuMemcpySafe (dst : List Nat) (dstOffset : Nat) (src : List Nat) :
    Except GErr (List Nat) :=
  if dstOffset + src.length ≤ dst.length then
    .ok (dst.take dstOffset ++ src ++ dst.drop (dstOffset + src.length))
  else
    .error ⟨.invalidData, "destination buffer too small"⟩

/-- The patch loop of fu_firmware_get_bytes_with_patches (lines 644-657):
apply each patch in insertion order to the mutable copy, aborting with a
contextual prefix naming the patch offset when one is out of bounds. -/
def applyPatchesLoop : List Nat → List FuFirmwarePatch → Except GErr (List Nat)
  | buf, [] => .ok buf
  | buf, p :: ps =>
    match fuMemcpySafe buf p.offset p.blob with
    | .ok buf2 => applyPatchesLoop buf2 ps
    | .error e =>
      .error ⟨e.code,
        "failed to apply patch @0x" ++ natToHex (p.offset % 2 ^ 32) ++ ": " ++ e.message⟩

/-- fu_firmware_get_bytes_with_patches (lines 623-661).  The C function only
reads the private data (patches are applied to a local copy), so the state
it returns is the input state; the pair makes that fact explicit. -/
def fu_firmware_get_bytes_with_patches (self : FuFirmware) :
    FuFirmware × Except GErr (List Nat) :=
  match self.data.bytes with
  | none =>
    match self.data.stream with
    | some _ => (self, fu_firmware_get_bytes self)
    | none => (self, .error ⟨.notFound, "no payload set"⟩)
  | some b =>
    match self.data.patches with
    | none => (self, fu_firmware_get_bytes self)
    | some ps => (self, applyPatchesLoop b ps)

/-- fu_firmware_add_patch (lines 1528-1559): replace the blob of the first
existing patch with the same offset and the same blob size, else append. -/
def addPatchList (offset : Nat) (blob : List Nat) :
    List FuFirmwarePatch → List FuFirmwarePatch
  | [] => [⟨offset, blob⟩]
  | p :: ps =>
    if p.offset = offset ∧ p.blob.length = blob.length then
      ⟨p.offset, blob⟩ :: ps
    else
      p :: addPatchList offset blob ps

def fu_firmware_add_patch (self : FuFirmware) (offset : Nat) (blob : List Nat) :
    FuFirmware :=
  self.withData fun d =>
    { d with patches := some (addPatchList offset blob (d.patches.getD [])) }

/-! ### Child images -/

/-- The dedupe loops of fu_firmware_add_image_full (lines 1723-1741):
remove the first element satisfying the predicate, then break. -/
def listRemoveFirst (p : α → Bool) : List α → List α
  | [] => []
  | x :: xs => if p x then xs else x :: listRemoveFirst p xs

/-- The dedupe section of fu_firmware_add_image_full (lines 1723-1741):
the parent's image array after the optional removal of a child with the
same id and of a child with the same idx. -/
def addImageDedupe (self img : FuFirmware) : List FuFirmware :=
  let imgs1 :=
    if fu_firmware_has_flag self FU_FIRMWARE_FLAG_DEDUPE_ID then
      listRemoveFirst (fun t => t.data.id == img.data.id) self.images
    else self.images
  if fu_firmware_has_flag self FU_FIRMWARE_FLAG_DEDUPE_IDX then
    listRemoveFirst (fun t => t.data.idx == img.data.idx) imgs1
  else imgs1

/-- fu_firmware_add_image_full (lines 1704-1761): depth check against the
parent's depth, optional dedupe by id and by idx, images_max check, then
append the child with its depth set to `parent.depth + 1`.  The weak parent
back-reference set by fu_firmware_set_parent is not modelled. -/
def fu_firmware_add_image_full (self img : FuFirmware) : Except GErr FuFirmware :=
  if self.data.depth > FU_FIRMWARE_IMAGE_DEPTH_MAX then
    .error ⟨.invalidData,
      "images are nested too deep, limit is " ++ toString FU_FIRMWARE_IMAGE_DEPTH_MAX⟩
  else
    if 0 < self.data.images_max ∧ self.data.images_max ≤ (addImageDedupe self img).length then
      .error ⟨.invalidData, "too many images, limit is " ++ toString self.data.images_max⟩
    else
      .ok (.mk self.data
        (addImageDedupe self img ++
          [img.withData fun d => { d with depth := self.data.depth + 1 }]))

/-- fu_firmware_get_depth (lines 1680-1686). -/
def fu_firmware_get_depth (self : FuFirmware) : Nat :=
  self.data.depth

/-! ### Image lookup by id -/

/-- Model of GLib's g_pattern_match_simple: glob matching where the
wildcard star matches any character sequence and the question mark matches
exactly one character (GLib's only two wildcards); a star consumes any
number of leading characters, expressed here as trying every drop. -/
def globMatch : List Char → List Char → Bool
  | [], s => s.isEmpty
  | '*' :: ps, s => (List.range (s.length + 1)).any fun k => globMatch ps (s.drop k)
  | '?' :: ps, s =>
    match s with
    | [] => false
    | _ :: cs => globMatch ps cs
  | p :: ps, s =>
    match s with
    | [] => false
    | c :: cs => p == c && globMatch ps cs

/-- Splitting a character list on a delimiter character. -/
def splitOnChar (delim : Char) : List Char → List (List Char)
  | [] => [[]]
  | c :: cs =>
    if c == delim then [] :: splitOnChar delim cs
    else
      match splitOnChar delim cs with
      | [] => [[c]]
      | t :: ts => (c :: t) :: ts

/-- Model of GLib's g_strsplit with unlimited max_tokens and a one-character
delimiter (the source always splits on the pipe character): an empty string
yields an empty vector, otherwise split on every occurrence of the
delimiter. -/
def gStrsplit (s : String) (delim : Char) : List String :=
  if s = "" then [] else (splitOnChar delim s.data).map String.mk

/-- The inner loop of fu_firmware_get_image_by_id (lines 1963-1971): a
child matches when its id is non-NULL and some split piece glob-matches it. -/
def imageMatchesAnyPiece (pieces : List String) (img : FuFirmware) : Bool :=
  pieces.any fun pat =>
    match img.data.id with
    | none => false
    | some s => globMatch pat.data s.data

/-- fu_firmware_get_image_by_id (lines 1952-1991). -/
def fu_firmware_get_image_by_id (self : FuFirmware) (id : Option String) :
    Except GErr FuFirmware :=
  match id with
  | some idv =>
    match self.images.find? (imageMatchesAnyPiece (gStrsplit idv '|')) with
    | some img => .ok img
    | none => .error ⟨.notFound, "no image id " ++ idv ++ " found in firmware"⟩
  | none =>
    match self.images.find? (fun img => img.data.id == none) with
    | some img => .ok img
    | none => .error ⟨.notFound, "no NULL image id found in firmware"⟩

/-! ### Parse pipeline -/

/-- The optional class hooks a concrete firmware format implements
(FuFirmwareClass).  Hooks receive the object, the (partial) stream and the
parse flags; stateful hooks return the mutated object with their result.
`check_compatible` records only whether the hook is non-NULL, which is all
fu_firmware_parse_stream looks at (line 1064). -/
structure FuFirmwareClass where
  validate : Option (FuFirmware → List Nat → Nat → Except GErr Unit) := none
  tokenize : Option (FuFirmware → List Nat → Nat → FuFirmware × Except GErr Unit) := none
  parseHook : Option (FuFirmware → List Nat → Nat → FuFirmware × Except GErr Unit) := none
  check_compatible : Bool := false

/-- The base FuFirmware class: no hook implemented (a raw container). -/
def rawFirmwareClass : FuFirmwareClass := {}

def isOkU : Except GErr Unit → Bool
  | .ok _ => true
  | .error _ => false

/-- fu_firmware_validate_for_offset (lines 931-980): when a validator is
implemented, either call it exactly once at the given offset (search
disabled, or the stream exceeds the search ceiling) or scan forward
byte-by-byte for the first offset it accepts, recording that offset on the
node.  Returns the updated node and the resolved offset. -/
def fu_firmware_validate_for_offset (cls : FuFirmwareClass) (self : FuFirmware)
    (stream : List Nat) (offset : Nat) (flags : Nat) :
    FuFirmware × Except GErr Nat :=
  match cls.validate with
  | none => (self, .ok offset)
  | some v =>
    if fu_firmware_has_flag self FU_FIRMWARE_FLAG_ALWAYS_SEARCH = false ∧
        0 < flags &&& FU_FIRMWARE_PARSE_FLAG_NO_SEARCH then
      match v self stream offset with
      | .ok _ => (self, .ok offset)
      | .error e => (self, .error e)
    else
      let streamsz := stream.length
      if streamsz > FU_FIRMWARE_SEARCH_MAGIC_BUFSZ_MAX then
        match v self stream offset with
        | .ok _ => (self, .ok offset)
        | .error e =>
          (self, .error ⟨e.code,
            "failed to search for magic as firmware size was 0x" ++
              natToHex (streamsz % 2 ^ 32) ++ " and limit was 0x" ++
              natToHex (FU_FIRMWARE_SEARCH_MAGIC_BUFSZ_MAX % 2 ^ 32) ++ ": " ++
              e.message⟩)
      else
        match (List.range' offset (streamsz - offset)).find?
            (fun o => isOkU (v self stream o)) with
        | some o => (self.withData (fun d => { d with offset := o }), .ok o)
        | none => (self, .error ⟨.invalidFile, "did not find magic"⟩)

/-- Tail of fu_firmware_parse_stream (lines 1096-1114): the optional
format-specific parse, falling back to the raw alignment check.  Mirrors
the source in checking the FULL stream size `streamsz` (the local variable
of line 1005), not the remaining size after the offset. -/
def fu_firmware_parse_tail (cls : FuFirmwareClass) (self : FuFirmware)
    (pstream : List Nat) (flags streamsz : Nat) : FuFirmware × Except GErr Unit :=
  match cls.parseHook with
  | some pa => pa self pstream flags
  | none =>
    if streamsz % 2 ^ self.data.alignment ≠ 0 then
      (self, .error ⟨.invalidFile,
        "raw firmware is not aligned to 0x" ++
          natToHex ((2 ^ self.data.alignment) % 2 ^ 32) ++ " (" ++
          gFormatSize (2 ^ self.data.alignment) ++ ")"⟩)
    else
      (self, .ok ())

/-- Lines 1059-1114 of fu_firmware_parse_stream, the section reached once
every early check has passed: mark done-parse (line 1061), record an
implemented check_compatible hook (line 1064), build the bounded sub-view
(zero-copy when the resolved offset is 0), honour the two cache flags, then
run the optional tokenize hook and the parse hook / raw-alignment tail. -/
def parseAfterChecks (cls : FuFirmwareClass) (s2 : FuFirmware)
    (stream : List Nat) (off2 flags : Nat) : FuFirmware × Except GErr Unit :=
  let streamsz := stream.length
  let s3 := fu_firmware_add_flag s2 FU_FIRMWARE_FLAG_DONE_PARSE
  let s4 := if cls.check_compatible then
      fu_firmware_add_flag s3 FU_FIRMWARE_FLAG_HAS_CHECK_COMPATIBLE
    else s3
  let pstream := if off2 = 0 then stream
    else (stream.drop off2).take (streamsz - off2)
  let s5 := if 0 < flags &&& FU_FIRMWARE_PARSE_FLAG_CACHE_BLOB then
      fu_firmware_set_bytes s4 (listReadBytes pstream 0 (streamsz - off2))
    else s4
  let s6 := if 0 < flags &&& FU_FIRMWARE_PARSE_FLAG_CACHE_STREAM then
      s5.withData (fun d => { d with stream := some pstream })
    else s5
  match cls.tokenize with
  | some tok =>
    match tok s6 pstream flags with
    | (s7, .error e) => (s7, .error e)
    | (s7, .ok _) => fu_firmware_parse_tail cls s7 pstream flags streamsz
  | none => fu_firmware_parse_tail cls s6 pstream flags streamsz

/-- fu_firmware_parse_stream (lines 996-1115).  Returns the object state
after the call together with the call's result, so that mutations made
before a failure (notably setting the done-parse flag at line 1061) are
visible. -/
def fu_firmware_parse_stream (cls : FuFirmwareClass) (self : FuFirmware)
    (stream : List Nat) (offset flags : Nat) : FuFirmware × Except GErr Unit :=
  if fu_firmware_has_flag self FU_FIRMWARE_FLAG_DONE_PARSE then
    (self, .error ⟨.notSupported, "firmware object cannot be reused"⟩)
  else if stream.length ≤ offset then
    (self, .error ⟨.notSupported,
      "stream size 0x" ++ natToHex (stream.length % 2 ^ 32) ++
        " is smaller than offset 0x" ++ natToHex (offset % 2 ^ 32)⟩)
  else
    match fu_firmware_validate_for_offset cls self stream offset flags with
    | (s1, .error e) => (s1, .error e)
    | (s1, .ok off2) =>
      let streamsz := stream.length
      let s2 := s1.withData fun d => { d with streamsz := streamsz - off2 }
      if streamsz - off2 = 0 then
        (s2, .error ⟨.notSupported, "invalid firmware as zero sized"⟩)
      else if 0 < s2.data.size_max ∧ s2.data.size_max < streamsz - off2 then
        (s2, .error ⟨.invalidFile,
          "firmware is too large (" ++ gFormatSize (streamsz - off2) ++
            ", limit " ++ gFormatSize s2.data.size_max ++ ")"⟩)
      else
        parseAfterChecks cls s2 stream off2 flags

/-! ### Probe chain -/

/-- The candidate loop of fu_firmware_new_from_gtypes (lines 2538-2553):
construct a fresh object of each candidate type, try the full parse
pipeline, return the first success; failures are accumulated by prefixing
each new failure message onto the aggregate error.  The `[], none` case is
unreachable because the caller only enters the loop with a nonempty list. -/
def newFromGtypesLoop (stream : List Nat) (offset flags : Nat) :
    List FuFirmwareClass → Option GErr → Except GErr FuFirmware
  | [], some e => .error e
  | [], none => .error ⟨.internalErr, "unreachable"⟩
  | c :: rest, acc =>
    match fu_firmware_parse_stream c fu_firmware_new stream offset flags with
    | (s, .ok _) => .ok s
    | (_, .error e) =>
      newFromGtypesLoop stream offset flags rest
        (some (match acc with
          | none => e
          | some ea => ⟨ea.code, e.message ++ ": " ++ ea.message⟩))

/-- fu_firmware_new_from_gtypes (lines 2505-2558); the varargs GType list
is modelled as the list of candidate classes. -/
def fu_firmware_new_from_gtypes (gtypes : List FuFirmwareClass)
    (stream : List Nat) (offset flags : Nat) : Except GErr FuFirmware :=
  match gtypes with
  | [] => .error ⟨.nothingToDo, "no GTypes specified"⟩
  | _ :: _ => newFromGtypesLoop stream offset flags gtypes none

/-! ### Claim C1: the nesting-depth invariant -/

/-- The chain of claim C1: starting from a fresh root, repeatedly add a
fresh child to the deepest node; `nestChain n` is the deepest node after
the n-th successful add, or the first error. -/
def nestChain : Nat → Except GErr FuFirmware
  | 0 => .ok fu_firmware_new
  | n + 1 =>
    match nestChain n with
    | .error e => .error e
    | .ok deepest =>
      match fu_firmware_add_image_full deepest fu_firmware_new with
      | .error e => .error e
      | .ok parent2 => .ok (parent2.images.getLastD fu_firmware_new)

/-- The value the chain's deepest node takes at nesting level n. -/
def chainNode (n : Nat) : FuFirmware := .mk { depth := n } []

theorem addImageFull_chain (n : Nat) (h : n ≤ 50) :
    fu_firmware_add_image_full (chainNode n) fu_firmware_new =
      .ok (.mk { depth := n } [chainNode (n + 1)]) := by
  unfold fu_firmware_add_image_full chainNode fu_firmware_new
  simp [FU_FIRMWARE_IMAGE_DEPTH_MAX, addImageDedupe, fu_firmware_has_flag,
    FuFirmware.withData, Nat.not_lt.2 h]

theorem nestChain_succ (n : Nat) :
    nestChain (n + 1) =
      match nestChain n with
      | .error e => .error e
      | .ok deepest =>
        match fu_firmware_add_image_full deepest fu_firmware_new with
        | .error e => .error e
        | .ok parent2 => .ok (parent2.images.getLastD fu_firmware_new) := rfl

theorem nestChain_ok : ∀ n, n ≤ 51 → nestChain n = .ok (chainNode n) := by
  intro n
  induction n with
  | zero => intro _; rfl
  | succ n ih =>
    intro h
    rw [nestChain_succ, ih (by omega)]
    show (match fu_firmware_add_image_full (chainNode n) fu_firmware_new with
      | Except.error e => Except.error e
      | Except.ok parent2 => Except.ok (parent2.images.getLastD fu_firmware_new)) =
        Except.ok (chainNode (n + 1))
    rw [addImageFull_chain n (by omega)]
    rfl

/-- Claim C1 fails on the code: the 51st add_image succeeds (the depth
check rejects only parents strictly deeper than 50), producing a node of
depth 51, so depth does exceed 50. -/
theorem claim_C1_counterexample :
    nestChain 51 = .ok (chainNode 51) ∧
      fu_firmware_get_depth (chainNode 51) = 51 ∧
      FU_FIRMWARE_IMAGE_DEPTH_MAX < fu_firmware_get_depth (chainNode 51) :=
  ⟨nestChain_ok 51 (by norm_num), rfl, by decide⟩

/-- Claim C1 as amended: nesting up to 51 levels succeeds with each child's
reported depth equal to its nesting level, and the 52nd add_image fails
with an error rather than a crash; equivalently, depth never exceeds 51. -/
theorem claim_C1_amended :
    (∀ n, n ≤ 51 →
        nestChain n = .ok (chainNode n) ∧ fu_firmware_get_depth (chainNode n) = n) ∧
      nestChain 52 = .error ⟨.invalidData, "images are nested too deep, limit is 50"⟩ := by
  refine ⟨fun n h => ⟨nestChain_ok n h, rfl⟩, ?_⟩
  rw [show (52 : Nat) = 51 + 1 from rfl, nestChain_succ, nestChain_ok 51 (by norm_num)]
  rfl

theorem claim_C1_witness :
    nestChain 50 = .ok (chainNode 50) ∧ fu_firmware_get_depth (chainNode 50) = 50 :=
  claim_C1_amended.1 50 (by norm_num)

/-! ### Claim C3: exclusivity of the two payload representations -/

/-- Claim C3 fails on the code: fu_firmware_set_stream does not clear an
existing byte buffer, so after set_bytes followed by set_stream the node
holds both payload representations at once. -/
theorem claim_C3_counterexample :
    (fu_firmware_set_stream (fu_firmware_set_bytes fu_firmware_new [1])
        (some [2])).data.bytes = some [1] ∧
      (fu_firmware_set_stream (fu_firmware_set_bytes fu_firmware_new [1])
        (some [2])).data.stream = some [2] :=
  ⟨rfl, rfl⟩

/-- Claim C3 as amended: setting a byte buffer clears the stream (unless
the very same buffer is already set, in which case nothing changes), but
setting a stream leaves the byte buffer untouched, so a node can hold both
representations at once — for example after a parse that requests both
cache-blob and cache-stream. -/
theorem claim_C3_amended :
    (∀ (s : FuFirmware) (b : List Nat) (t : Option (List Nat)),
        (fu_firmware_set_bytes s b).data.bytes = some b ∧
          ((fu_firmware_set_bytes s b).data.stream = none ∨
            fu_firmware_set_bytes s b = s) ∧
          (fu_firmware_set_stream s t).data.bytes = s.data.bytes) ∧
      ((fu_firmware_parse_stream rawFirmwareClass fu_firmware_new [1, 2, 3, 4] 0
            (FU_FIRMWARE_PARSE_FLAG_CACHE_BLOB |||
              FU_FIRMWARE_PARSE_FLAG_CACHE_STREAM)).1.data.bytes = some [1, 2, 3, 4] ∧
        (fu_firmware_parse_stream rawFirmwareClass fu_firmware_new [1, 2, 3, 4] 0
            (FU_FIRMWARE_PARSE_FLAG_CACHE_BLOB |||
              FU_FIRMWARE_PARSE_FLAG_CACHE_STREAM)).1.data.stream = some [1, 2, 3, 4]) := by
  refine ⟨fun s b t => ⟨?_, ?_, ?_⟩, rfl, rfl⟩
  · unfold fu_firmware_set_bytes
    split
    · assumption
    · simp
  · unfold fu_firmware_set_bytes
    split
    · exact Or.inr rfl
    · exact Or.inl (by simp)
  · unfold fu_firmware_set_stream
    simp

/-! ### Claim C6: patch dedupe by (offset, length) and insertion order -/

theorem addPatchList_twice (o : Nat) (b1 b2 : List Nat) (h : b1.length = b2.length) :
    ∀ l, addPatchList o b2 (addPatchList o b1 l) = addPatchList o b2 l := by
  intro l
  induction l with
  | nil => simp [addPatchList, h]
  | cons p ps ih =>
    by_cases hc : p.offset = o ∧ p.blob.length = b1.length
    · simp [addPatchList, hc, hc.1, hc.2, h]
    · have hc2 : ¬(p.offset = o ∧ p.blob.length = b2.length) := by
        intro hx
        exact hc ⟨hx.1, by rw [hx.2, ← h]⟩
      simp [addPatchList, hc, hc2, ih]

/-- Claim C6: adding a second patch with the same offset and the same
replacement length replaces the first in place, so the patched payload
reflects only the latest patch; and patches are applied in insertion
order (the two concrete runs overlap at byte 1 and show the later-inserted
patch winning there). -/
theorem claim_C6 :
    (∀ (s : FuFirmware) (o : Nat) (b1 b2 : List Nat), b1.length = b2.length →
        fu_firmware_add_patch (fu_firmware_add_patch s o b1) o b2 =
          fu_firmware_add_patch s o b2) ∧
      (fu_firmware_get_bytes_with_patches (fu_firmware_add_patch (fu_firmware_add_patch
          (fu_firmware_set_bytes fu_firmware_new [0, 0, 0]) 0 [1, 1]) 0 [2, 2])).2 =
        .ok [2, 2, 0] ∧
      (fu_firmware_get_bytes_with_patches (fu_firmware_add_patch (fu_firmware_add_patch
          (fu_firmware_set_bytes fu_firmware_new [0, 0, 0]) 0 [1, 1]) 1 [2, 2])).2 =
        .ok [1, 2, 2] ∧
      (fu_firmware_get_bytes_with_patches (fu_firmware_add_patch (fu_firmware_add_patch
          (fu_firmware_set_bytes fu_firmware_new [0, 0, 0]) 1 [2, 2]) 0 [1, 1])).2 =
        .ok [1, 1, 2] := by
  refine ⟨fun s o b1 b2 h => ?_, rfl, rfl, rfl⟩
  cases s with
  | mk d imgs =>
    simp [fu_firmware_add_patch, FuFirmware.withData, addPatchList_twice o b1 b2 h]

theorem claim_C6_witness :
    fu_firmware_add_patch (fu_firmware_add_patch fu_firmware_new 0 [1, 2]) 0 [3, 4] =
      fu_firmware_add_patch fu_firmware_new 0 [3, 4] :=
  claim_C6.1 fu_firmware_new 0 [1, 2] [3, 4] rfl

/-! ### Claim C7: stream-backed nodes silently drop patches -/

/-- Claim C7: when the byte buffer is unset but a stream is set,
get_bytes_with_patches defers to get_bytes, even when the patch list is
non-empty (the s quantified here may carry any patches). -/
theorem claim_C7 :
    ∀ (s : FuFirmware) (t : List Nat), s.data.bytes = none → s.data.stream = some t →
      fu_firmware_get_bytes_with_patches s = (s, fu_firmware_get_bytes s) := by
  intro s t hb hs
  unfold fu_firmware_get_bytes_with_patches
  rw [hb, hs]

/-- A stream-backed node with no cached buffer and a non-empty patch list. -/
def c7node : FuFirmware :=
  fu_firmware_add_patch (fu_firmware_set_stream fu_firmware_new (some [1, 2, 3, 4])) 0 [9]

theorem claim_C7_witness :
    fu_firmware_get_bytes_with_patches c7node = (c7node, fu_firmware_get_bytes c7node) :=
  claim_C7 c7node [1, 2, 3, 4] rfl rfl

/-! ### Claim C5: patch application is read-only, deterministic, bounds-checked -/

theorem fuMemcpySafe_length {dst : List Nat} {o : Nat} {src r : List Nat}
    (h : fuMemcpySafe dst o src = .ok r) : r.length = dst.length := by
  unfold fuMemcpySafe at h
  split at h
  · next hle =>
    injection h with h
    subst h
    simp only [List.length_append, List.length_take, List.length_drop]
    omega
  · simp at h

theorem applyPatchesLoop_oob :
    ∀ (ps : List FuFirmwarePatch) (buf : List Nat),
      (∃ p ∈ ps, buf.length < p.offset + p.blob.length) →
      ∃ p ∈ ps, buf.length < p.offset + p.blob.length ∧
        ∃ e, applyPatchesLoop buf ps = .error e ∧
          strContains e.message ("@0x" ++ natToHex (p.offset % 2 ^ 32)) := by
  intro ps
  induction ps with
  | nil => intro buf h; simp at h
  | cons p ps ih =>
    intro buf h
    by_cases hp : buf.length < p.offset + p.blob.length
    · refine ⟨p, List.mem_cons_self p ps, hp, ?_⟩
      have hm : fuMemcpySafe buf p.offset p.blob =
          .error ⟨.invalidData, "destination buffer too small"⟩ := by
        unfold fuMemcpySafe
        rw [if_neg (by omega)]
      refine ⟨⟨.invalidData,
        "failed to apply patch @0x" ++ natToHex (p.offset % 2 ^ 32) ++ ": " ++
          "destination buffer too small"⟩, ?_, ?_⟩
      · unfold applyPatchesLoop
        rw [hm]
      · have hsplit : ("failed to apply patch @0x").data =
            ("failed to apply patch ").data ++ ("@0x").data := by decide
        refine ⟨("failed to apply patch ").data,
          (": " ++ "destination buffer too small").data, ?_⟩
        simp [string_data_append, hsplit]
    · obtain ⟨q, hq, hqo⟩ := h
      have hq2 : q ∈ ps := by
        rcases List.mem_cons.1 hq with h1 | h1
        · subst h1; omega
        · exact h1
      have hm : fuMemcpySafe buf p.offset p.blob =
          .ok (buf.take p.offset ++ p.blob ++ buf.drop (p.offset + p.blob.length)) := by
        unfold fuMemcpySafe
        rw [if_pos (by omega)]
      have hlen := fuMemcpySafe_length hm
      obtain ⟨q2, hq2m, hqo2, e, he, hc⟩ :=
        ih (buf.take p.offset ++ p.blob ++ buf.drop (p.offset + p.blob.length))
          ⟨q, hq2, by rw [hlen]; exact hqo⟩
      rw [hlen] at hqo2
      refine ⟨q2, List.mem_cons_of_mem p hq2m, hqo2, e, ?_, hc⟩
      unfold applyPatchesLoop
      rw [hm]
      exact he

/-- Claim C5: for a node with a byte-buffer payload and a patch list,
get_bytes_with_patches leaves the node (hence its stored buffer) untouched,
a second call returns a bit-identical result, and any out-of-bounds patch
makes the call fail with a message naming that patch's offset. -/
theorem claim_C5 :
    ∀ (s : FuFirmware) (buf : List Nat) (ps : List FuFirmwarePatch),
      s.data.bytes = some buf → s.data.patches = some ps →
      (fu_firmware_get_bytes_with_patches s).1 = s ∧
        (fu_firmware_get_bytes_with_patches
            ((fu_firmware_get_bytes_with_patches s).1)).2 =
          (fu_firmware_get_bytes_with_patches s).2 ∧
        ((∃ p ∈ ps, buf.length < p.offset + p.blob.length) →
          ∃ p ∈ ps, buf.length < p.offset + p.blob.length ∧
            ∃ e, (fu_firmware_get_bytes_with_patches s).2 = .error e ∧
              strContains e.message ("@0x" ++ natToHex (p.offset % 2 ^ 32))) := by
  intro s buf ps hb hp
  have h1 : fu_firmware_get_bytes_with_patches s = (s, applyPatchesLoop buf ps) := by
    unfold fu_firmware_get_bytes_with_patches
    rw [hb, hp]
  refine ⟨by rw [h1], by simp [h1], ?_⟩
  intro hex
  obtain ⟨p, hmem, hoob, e, he, hc⟩ := applyPatchesLoop_oob ps buf hex
  exact ⟨p, hmem, hoob, e, by rw [h1]; exact he, hc⟩

/-- A node with a 3-byte buffer and one out-of-bounds patch at offset 2. -/
def c5node : FuFirmware :=
  fu_firmware_add_patch (fu_firmware_set_bytes fu_firmware_new [0, 0, 0]) 2 [9, 9]

theorem claim_C5_witness :
    (fu_firmware_get_bytes_with_patches c5node).1 = c5node ∧
      (fu_firmware_get_bytes_with_patches
          ((fu_firmware_get_bytes_with_patches c5node).1)).2 =
        (fu_firmware_get_bytes_with_patches c5node).2 ∧
      ((∃ p ∈ [(⟨2, [9, 9]⟩ : FuFirmwarePatch)],
          ([0, 0, 0] : List Nat).length < p.offset + p.blob.length) →
        ∃ p ∈ [(⟨2, [9, 9]⟩ : FuFirmwarePatch)],
          ([0, 0, 0] : List Nat).length < p.offset + p.blob.length ∧
            ∃ e, (fu_firmware_get_bytes_with_patches c5node).2 = .error e ∧
              strContains e.message ("@0x" ++ natToHex (p.offset % 2 ^ 32))) :=
  claim_C5 c5node [0, 0, 0] [⟨2, [9, 9]⟩] rfl rfl

/-! ### Claim C9: dedupe-by-id and dedupe-by-index replacement -/

theorem listRemoveFirst_no_match {p : α → Bool} :
    ∀ {l : List α}, (∀ x ∈ l, p x = false) → listRemoveFirst p l = l := by
  intro l
  induction l with
  | nil => intro _; rfl
  | cons x xs ih =>
    intro h
    unfold listRemoveFirst
    rw [if_neg (by simp [h x (List.mem_cons_self x xs)])]
    rw [ih fun y hy => h y (List.mem_cons_of_mem x hy)]

theorem listRemoveFirst_last_match {p : α → Bool} {x : α} :
    ∀ {l : List α}, (∀ y ∈ l, p y = false) → p x = true →
      listRemoveFirst p (l ++ [x]) = l := by
  intro l
  induction l with
  | nil => intro _ hx; simp [listRemoveFirst, hx]
  | cons y ys ih =>
    intro h hx
    simp only [List.cons_append]
    unfold listRemoveFirst
    rw [if_neg (by simp [h y (List.mem_cons_self y ys)])]
    rw [ih (fun z hz => h z (List.mem_cons_of_mem y hz)) hx]

theorem addImageFull_ok_inv {p img r : FuFirmware}
    (h : fu_firmware_add_image_full p img = .ok r) :
    r = .mk p.data (addImageDedupe p img ++
      [img.withData fun d => { d with depth := p.data.depth + 1 }]) := by
  unfold fu_firmware_add_image_full at h
  split at h
  · simp at h
  · split at h
    · simp at h
    · injection h with h
      exact h.symm

theorem addImageDedupe_id_only {p img : FuFirmware}
    (hid : fu_firmware_has_flag p FU_FIRMWARE_FLAG_DEDUPE_ID = true)
    (hidx : fu_firmware_has_flag p FU_FIRMWARE_FLAG_DEDUPE_IDX = false) :
    addImageDedupe p img = listRemoveFirst (fun t => t.data.id == img.data.id) p.images := by
  unfold addImageDedupe
  rw [hid, hidx]
  simp

theorem addImageDedupe_idx_only {p img : FuFirmware}
    (hid : fu_firmware_has_flag p FU_FIRMWARE_FLAG_DEDUPE_ID = false)
    (hidx : fu_firmware_has_flag p FU_FIRMWARE_FLAG_DEDUPE_IDX = true) :
    addImageDedupe p img = listRemoveFirst (fun t => t.data.idx == img.data.idx) p.images := by
  unfold addImageDedupe
  rw [hid, hidx]
  simp

/-- Claim C9: with dedupe-by-id set (and dedupe-by-index clear), adding two
children with the same id leaves exactly one child with that id, the
second-added instance; the analogous replacement holds for dedupe-by-index
with equal idx values. -/
theorem claim_C9 :
    (∀ (p a b p1 p2 : FuFirmware),
        fu_firmware_has_flag p FU_FIRMWARE_FLAG_DEDUPE_ID = true →
        fu_firmware_has_flag p FU_FIRMWARE_FLAG_DEDUPE_IDX = false →
        a.data.id = b.data.id →
        (∀ c ∈ p.images, c.data.id ≠ b.data.id) →
        fu_firmware_add_image_full p a = .ok p1 →
        fu_firmware_add_image_full p1 b = .ok p2 →
        p2.images =
            p.images ++ [b.withData fun d => { d with depth := p.data.depth + 1 }] ∧
          p2.images.filter (fun c => c.data.id == b.data.id) =
            [b.withData fun d => { d with depth := p.data.depth + 1 }]) ∧
      (∀ (p a b p1 p2 : FuFirmware),
        fu_firmware_has_flag p FU_FIRMWARE_FLAG_DEDUPE_ID = false →
        fu_firmware_has_flag p FU_FIRMWARE_FLAG_DEDUPE_IDX = true →
        a.data.idx = b.data.idx →
        (∀ c ∈ p.images, c.data.idx ≠ b.data.idx) →
        fu_firmware_add_image_full p a = .ok p1 →
        fu_firmware_add_image_full p1 b = .ok p2 →
        p2.images =
            p.images ++ [b.withData fun d => { d with depth := p.data.depth + 1 }] ∧
          p2.images.filter (fun c => c.data.idx == b.data.idx) =
            [b.withData fun d => { d with depth := p.data.depth + 1 }]) := by
  constructor
  · intro p a b p1 p2 hid hidx hab hnone h5 h6
    have hnomatchA : ∀ c ∈ p.images, (c.data.id == a.data.id) = false := by
      intro c hc
      simp [hab, hnone c hc]
    have hnomatchB : ∀ c ∈ p.images, (c.data.id == b.data.id) = false := by
      intro c hc
      simp [hnone c hc]
    have hr1 := addImageFull_ok_inv h5
    rw [addImageDedupe_id_only hid hidx, listRemoveFirst_no_match hnomatchA] at hr1
    rw [hr1] at h6
    have hid1 : fu_firmware_has_flag (FuFirmware.mk p.data
        (p.images ++ [a.withData fun d => { d with depth := p.data.depth + 1 }]))
          FU_FIRMWARE_FLAG_DEDUPE_ID = true := by
      simpa [fu_firmware_has_flag] using hid
    have hidx1 : fu_firmware_has_flag (FuFirmware.mk p.data
        (p.images ++ [a.withData fun d => { d with depth := p.data.depth + 1 }]))
          FU_FIRMWARE_FLAG_DEDUPE_IDX = false := by
      simpa [fu_firmware_has_flag] using hidx
    have hr2 := addImageFull_ok_inv h6
    rw [addImageDedupe_id_only hid1 hidx1] at hr2
    simp only [FuFirmware.images_mk, FuFirmware.data_mk] at hr2
    rw [listRemoveFirst_last_match hnomatchB (by simp [hab])] at hr2
    rw [hr2]
    simp only [FuFirmware.images_mk, FuFirmware.data_mk]
    refine ⟨trivial, ?_⟩
    rw [List.filter_append,
      List.filter_eq_nil_iff.2 (fun c hc => by simp [hnomatchB c hc])]
    simp
  · intro p a b p1 p2 hid hidx hab hnone h5 h6
    have hnomatchA : ∀ c ∈ p.images, (c.data.idx == a.data.idx) = false := by
      intro c hc
      simp [hab, hnone c hc]
    have hnomatchB : ∀ c ∈ p.images, (c.data.idx == b.data.idx) = false := by
      intro c hc
      simp [hnone c hc]
    have hr1 := addImageFull_ok_inv h5
    rw [addImageDedupe_idx_only hid hidx, listRemoveFirst_no_match hnomatchA] at hr1
    rw [hr1] at h6
    have hid1 : fu_firmware_has_flag (FuFirmware.mk p.data
        (p.images ++ [a.withData fun d => { d with depth := p.data.depth + 1 }]))
          FU_FIRMWARE_FLAG_DEDUPE_ID = false := by
      simpa [fu_firmware_has_flag] using hid
    have hidx1 : fu_firmware_has_flag (FuFirmware.mk p.data
        (p.images ++ [a.withData fun d => { d with depth := p.data.depth + 1 }]))
          FU_FIRMWARE_FLAG_DEDUPE_IDX = true := by
      simpa [fu_firmware_has_flag] using hidx
    have hr2 := addImageFull_ok_inv h6
    rw [addImageDedupe_idx_only hid1 hidx1] at hr2
    simp only [FuFirmware.images_mk, FuFirmware.data_mk] at hr2
    rw [listRemoveFirst_last_match hnomatchB (by simp [hab])] at hr2
    rw [hr2]
    simp only [FuFirmware.images_mk, FuFirmware.data_mk]
    refine ⟨trivial, ?_⟩
    rw [List.filter_append,
      List.filter_eq_nil_iff.2 (fun c hc => by simp [hnomatchB c hc])]
    simp

/-- Parents and children for the C9 witness: one parent deduping by id, one
by idx; the two children of each pair collide on the dedupe key and are
distinguished by their version field. -/
def c9parent : FuFirmware := .mk { flags := FU_FIRMWARE_FLAG_DEDUPE_ID } []

def c9childA : FuFirmware := .mk { id := some "x", version := some "A" } []

def c9childB : FuFirmware := .mk { id := some "x", version := some "B" } []

def c9p1 : FuFirmware :=
  (fu_firmware_add_image_full c9parent c9childA).toOption.getD fu_firmware_new

def c9p2 : FuFirmware :=
  (fu_firmware_add_image_full c9p1 c9childB).toOption.getD fu_firmware_new

def c9parentIdx : FuFirmware := .mk { flags := FU_FIRMWARE_FLAG_DEDUPE_IDX } []

def c9childC : FuFirmware := .mk { idx := 7, version := some "C" } []

def c9childD : FuFirmware := .mk { idx := 7, version := some "D" } []

def c9q1 : FuFirmware :=
  (fu_firmware_add_image_full c9parentIdx c9childC).toOption.getD fu_firmware_new

def c9q2 : FuFirmware :=
  (fu_firmware_add_image_full c9q1 c9childD).toOption.getD fu_firmware_new

theorem claim_C9_witness :
    (c9p2.images =
        c9parent.images ++
          [c9childB.withData fun d => { d with depth := c9parent.data.depth + 1 }] ∧
      c9p2.images.filter (fun c => c.data.id == c9childB.data.id) =
        [c9childB.withData fun d => { d with depth := c9parent.data.depth + 1 }]) ∧
      (c9q2.images =
          c9parentIdx.images ++
            [c9childD.withData fun d => { d with depth := c9parentIdx.data.depth + 1 }] ∧
        c9q2.images.filter (fun c => c.data.idx == c9childD.data.idx) =
          [c9childD.withData fun d => { d with depth := c9parentIdx.data.depth + 1 }]) :=
  ⟨claim_C9.1 c9parent c9childA c9childB c9p1 c9p2 rfl rfl rfl
      (by intro c hc; simp [c9parent] at hc) rfl rfl,
    claim_C9.2 c9parentIdx c9childC c9childD c9q1 c9q2 rfl rfl rfl
      (by intro c hc; simp [c9parentIdx] at hc) rfl rfl⟩

/-! ### Claim C10: image lookup by id with glob pieces -/

theorem globMatch_star_suffix (ps : List Char) (x t : List Char)
    (h : globMatch ps t = true) : globMatch ('*' :: ps) (x ++ t) = true := by
  show (List.range ((x ++ t).length + 1)).any (fun k => globMatch ps ((x ++ t).drop k)) = true
  rw [List.any_eq_true]
  refine ⟨x.length, List.mem_range.2 (by simp only [List.length_append]; omega), ?_⟩
  rw [List.drop_left]
  exact h

theorem find?_first {p : α → Bool} :
    ∀ (pre : List α) (x : α) (post : List α), (∀ c ∈ pre, p c = false) → p x = true →
      (pre ++ x :: post).find? p = some x := by
  intro pre
  induction pre with
  | nil =>
    intro x post _ hx
    simp [List.find?_cons_of_pos _ hx]
  | cons y ys ih =>
    intro x post h hx
    rw [List.cons_append, List.find?_cons_of_neg _ (by simp [h y (List.mem_cons_self y ys)])]
    exact ih x post (fun c hc => h c (List.mem_cons_of_mem y hc)) hx

/-- Claim C10: get_image_by_id with a non-NULL id splits on the pipe
character, treats each piece as a glob against each child's non-NULL id and
returns the first child matched by any piece; with a NULL id it returns the
first child whose id is NULL; in either case it fails with NotFound when no
child matches.  The last conjunct is the example: a star-dot-elf pattern
matches every id ending in dot-elf. -/
theorem claim_C10 :
    (∀ (s : FuFirmware) (idv : String) (img : FuFirmware),
        fu_firmware_get_image_by_id s (some idv) = .ok img →
          img ∈ s.images ∧ imageMatchesAnyPiece (gStrsplit idv '|') img = true) ∧
      (∀ (s : FuFirmware) (idv : String) (pre : List FuFirmware) (img : FuFirmware)
          (post : List FuFirmware),
        s.images = pre ++ img :: post →
        (∀ c ∈ pre, imageMatchesAnyPiece (gStrsplit idv '|') c = false) →
        imageMatchesAnyPiece (gStrsplit idv '|') img = true →
        fu_firmware_get_image_by_id s (some idv) = .ok img) ∧
      (∀ (s : FuFirmware) (idv : String),
        (∀ c ∈ s.images, imageMatchesAnyPiece (gStrsplit idv '|') c = false) →
        fu_firmware_get_image_by_id s (some idv) =
          .error ⟨.notFound, "no image id " ++ idv ++ " found in firmware"⟩) ∧
      (∀ (s : FuFirmware) (pre : List FuFirmware) (img : FuFirmware)
          (post : List FuFirmware),
        s.images = pre ++ img :: post →
        (∀ c ∈ pre, c.data.id ≠ none) → img.data.id = none →
        fu_firmware_get_image_by_id s none = .ok img) ∧
      (∀ s : FuFirmware, (∀ c ∈ s.images, c.data.id ≠ none) →
        fu_firmware_get_image_by_id s none =
          .error ⟨.notFound, "no NULL image id found in firmware"⟩) ∧
      (∀ x : String, globMatch ("*.elf").data ((x ++ ".elf").data) = true) := by
  refine ⟨?_, ?_, ?_, ?_, ?_, ?_⟩
  · intro s idv img h
    simp only [fu_firmware_get_image_by_id] at h
    cases hf : s.images.find? (imageMatchesAnyPiece (gStrsplit idv '|')) with
    | none => rw [hf] at h; simp at h
    | some i =>
      rw [hf] at h
      injection h with h
      subst h
      exact ⟨List.mem_of_find?_eq_some hf, List.find?_some hf⟩
  · intro s idv pre img post hs hpre himg
    simp only [fu_firmware_get_image_by_id]
    rw [hs, find?_first pre img post hpre himg]
  · intro s idv h
    simp only [fu_firmware_get_image_by_id]
    rw [List.find?_eq_none.2 (by intro c hc; simp [h c hc])]
  · intro s pre img post hs hpre himg
    simp only [fu_firmware_get_image_by_id]
    rw [hs, find?_first pre img post
      (by intro c hc; simp [hpre c hc]) (by simp [himg])]
  · intro s h
    simp only [fu_firmware_get_image_by_id]
    rw [List.find?_eq_none.2 (by intro c hc; simp [h c hc])]
  · intro x
    show globMatch ('*' :: (".elf").data) (x.data ++ (".elf").data) = true
    exact globMatch_star_suffix _ x.data _ (by decide)

/-- Two concrete children: one whose id ends in .bin, one in .elf. -/
def c10foo : FuFirmware := .mk { id := some "foo.bin" } []
def c10bar : FuFirmware := .mk { id := some "bar.elf" } []
def c10parent : FuFirmware := .mk {} [c10foo, c10bar]

theorem claim_C10_witness :
    fu_firmware_get_image_by_id c10parent (some "*.mfg|*.elf") = .ok c10bar :=
  claim_C10.2.1 c10parent "*.mfg|*.elf" [c10foo] c10bar [] rfl
    (by
      intro c hc
      rw [List.mem_singleton] at hc
      subst hc
      decide)
    (by decide)

/-! ### Claim C2: the raw alignment check -/

/-- Claim C2 fails on the code: the alignment check at fu-firmware.c line
1101 divides the FULL stream size, not the remaining size after the offset.
Here a raw node with 4-byte alignment parses a length-8 stream from offset
3 successfully although the remaining size 5 is not a multiple of 4. -/
theorem claim_C2_counterexample :
    (fu_firmware_parse_stream rawFirmwareClass
        (fu_firmware_new.withData fun d => { d with alignment := 2 })
        [0, 1, 2, 3, 4, 5, 6, 7] 3 0).2 = .ok () ∧
      (([0, 1, 2, 3, 4, 5, 6, 7] : List Nat).length - 3) % (2 ^ 2) ≠ 0 :=
  ⟨rfl, by decide⟩

theorem setBytes_alignment (t : FuFirmware) (b : List Nat) :
    (fu_firmware_set_bytes t b).data.alignment = t.data.alignment := by
  unfold fu_firmware_set_bytes
  split <;> simp

/-- Claim C2 as amended: for a parse of a node whose format defines no
hooks, the FULL stream size (not the remaining size past the offset) must
be a multiple of 1 shifted left by the alignment exponent, otherwise parse
fails with InvalidFile; at offset 0 the two notions coincide, so a raw node
requesting 4-byte alignment still fails on a length-5 stream and succeeds
on a length-8 stream. -/
theorem claim_C2_amended :
    ∀ (s : FuFirmware) (stream : List Nat) (offset flags : Nat),
      fu_firmware_has_flag s FU_FIRMWARE_FLAG_DONE_PARSE = false →
      offset < stream.length →
      s.data.size_max = 0 →
      ((fu_firmware_parse_stream rawFirmwareClass s stream offset flags).2 = .ok () ↔
        stream.length % 2 ^ s.data.alignment = 0) ∧
        (stream.length % 2 ^ s.data.alignment ≠ 0 →
          (fu_firmware_parse_stream rawFirmwareClass s stream offset flags).2 =
            .error ⟨.invalidFile,
              "raw firmware is not aligned to 0x" ++
                natToHex ((2 ^ s.data.alignment) % 2 ^ 32) ++ " (" ++
                gFormatSize (2 ^ s.data.alignment) ++ ")"⟩) := by
  intro s stream offset flags h1 h2 h3
  have hne : ¬ stream.length ≤ offset := by omega
  have hne2 : ¬ (stream.length - offset = 0) := by omega
  simp only [fu_firmware_parse_stream, parseAfterChecks, fu_firmware_validate_for_offset,
    fu_firmware_parse_tail, rawFirmwareClass, h1, Bool.false_eq_true, if_false,
    hne, ite_false, FuFirmware.data_withData]
  rw [if_neg hne2]
  rw [if_neg (by simp [h3])]
  by_cases hm : stream.length % 2 ^ s.data.alignment = 0
  all_goals
    simp [hm, fu_firmware_add_flag, fu_firmware_set_bytes, apply_ite
      (fun t : FuFirmware => t.data.alignment), apply_ite
      (fun t : FuFirmware × Except GErr Unit => t.2)]

theorem claim_C2_witness :
    (fu_firmware_parse_stream rawFirmwareClass
        (fu_firmware_new.withData fun d => { d with alignment := 2 })
        [0, 1, 2, 3, 4] 0 0).2 =
        .error ⟨.invalidFile,
          "raw firmware is not aligned to 0x" ++ natToHex ((2 ^ 2) % 2 ^ 32) ++ " (" ++
            gFormatSize (2 ^ 2) ++ ")"⟩ ∧
      (fu_firmware_parse_stream rawFirmwareClass
        (fu_firmware_new.withData fun d => { d with alignment := 2 })
        [0, 1, 2, 3, 4, 5, 6, 7] 0 0).2 = .ok () :=
  ⟨(claim_C2_amended (fu_firmware_new.withData fun d => { d with alignment := 2 })
      [0, 1, 2, 3, 4] 0 0 rfl (by decide) rfl).2 (by decide),
    (claim_C2_amended (fu_firmware_new.withData fun d => { d with alignment := 2 })
      [0, 1, 2, 3, 4, 5, 6, 7] 0 0 rfl (by decide) rfl).1.mpr (by decide)⟩

/-! ### Claim C4: the done-parse flag discipline -/

/-- The conjunction of the early checks of fu_firmware_parse_stream (reuse
check, size check, validation, zero-size check, size_max check), stated
from the source's own conditions: exactly when they all pass does control
reach the line that sets the done-parse flag. -/
def parseEarlyOk (cls : FuFirmwareClass) (s : FuFirmware) (stream : List Nat)
    (offset flags : Nat) : Prop :=
  fu_firmware_has_flag s FU_FIRMWARE_FLAG_DONE_PARSE = false ∧
  offset < stream.length ∧
  ∃ off2, (fu_firmware_validate_for_offset cls s stream offset flags).2 = .ok off2 ∧
    stream.length - off2 ≠ 0 ∧
    ¬(0 < s.data.size_max ∧ s.data.size_max < stream.length - off2)

theorem lor_land_self (x f : Nat) : (x ||| f) &&& f = f := by
  apply Nat.eq_of_testBit_eq
  intro i
  rw [Nat.testBit_and, Nat.testBit_or]
  cases h : Nat.testBit f i <;> simp [h]

theorem hasFlag_add_done (t : FuFirmware) :
    fu_firmware_has_flag (fu_firmware_add_flag t FU_FIRMWARE_FLAG_DONE_PARSE)
      FU_FIRMWARE_FLAG_DONE_PARSE = true := by
  have h := lor_land_self t.data.flags 16
  simp [fu_firmware_has_flag, fu_firmware_add_flag, FU_FIRMWARE_FLAG_DONE_PARSE, h]

theorem hasFlag_done_add_hcc (t : FuFirmware) :
    fu_firmware_has_flag (fu_firmware_add_flag t FU_FIRMWARE_FLAG_HAS_CHECK_COMPATIBLE)
      FU_FIRMWARE_FLAG_DONE_PARSE =
      fu_firmware_has_flag t FU_FIRMWARE_FLAG_DONE_PARSE := by
  have h : (t.data.flags ||| 256) &&& 16 = t.data.flags &&& 16 := by
    apply Nat.eq_of_testBit_eq
    intro i
    rw [Nat.testBit_and, Nat.testBit_or, Nat.testBit_and]
    rcases eq_or_ne i 8 with hi | hi
    · subst hi
      simp [show Nat.testBit 16 8 = false by decide]
    · have h256 : Nat.testBit 256 i = false := by
        rw [show (256 : Nat) = 2 ^ 8 from rfl, Nat.testBit_two_pow]
        simpa using fun h2 => hi h2.symm
      simp [h256]
  simp [fu_firmware_has_flag, fu_firmware_add_flag,
    FU_FIRMWARE_FLAG_DONE_PARSE, FU_FIRMWARE_FLAG_HAS_CHECK_COMPATIBLE, h]

theorem setBytes_flags (t : FuFirmware) (b : List Nat) :
    (fu_firmware_set_bytes t b).data.flags = t.data.flags := by
  unfold fu_firmware_set_bytes
  split <;> simp

theorem validateForOffset_shape (cls : FuFirmwareClass) (s : FuFirmware)
    (stream : List Nat) (offset flags : Nat) :
    (fu_firmware_validate_for_offset cls s stream offset flags).1 = s ∨
      ∃ o, (fu_firmware_validate_for_offset cls s stream offset flags).1 =
        s.withData fun d => { d with offset := o } := by
  unfold fu_firmware_validate_for_offset
  cases cls.validate with
  | none => exact Or.inl rfl
  | some v =>
    dsimp only
    split
    · split <;> exact Or.inl rfl
    · split
      · split <;> exact Or.inl rfl
      · split
        · next o _ => exact Or.inr ⟨o, rfl⟩
        · exact Or.inl rfl

theorem validateForOffset_flags (cls : FuFirmwareClass) (s : FuFirmware)
    (stream : List Nat) (offset flags : Nat) :
    (fu_firmware_validate_for_offset cls s stream offset flags).1.data.flags =
      s.data.flags := by
  rcases validateForOffset_shape cls s stream offset flags with h | ⟨o, h⟩ <;>
    rw [h] <;> simp

theorem validateForOffset_size_max (cls : FuFirmwareClass) (s : FuFirmware)
    (stream : List Nat) (offset flags : Nat) :
    (fu_firmware_validate_for_offset cls s stream offset flags).1.data.size_max =
      s.data.size_max := by
  rcases validateForOffset_shape cls s stream offset flags with h | ⟨o, h⟩ <;>
    rw [h] <;> simp

/-- Once the early checks pass, the state coming out of the parse pipeline
carries the done-parse flag, whatever the (flag-preserving) subclass hooks
did and even if they failed. -/
theorem parseAfterChecks_done (cls : FuFirmwareClass) (s2 : FuFirmware)
    (stream : List Nat) (off2 flags : Nat)
    (htok : ∀ tok, cls.tokenize = some tok → ∀ a st fl,
      fu_firmware_has_flag (tok a st fl).1 FU_FIRMWARE_FLAG_DONE_PARSE =
        fu_firmware_has_flag a FU_FIRMWARE_FLAG_DONE_PARSE)
    (hpar : ∀ pa, cls.parseHook = some pa → ∀ a st fl,
      fu_firmware_has_flag (pa a st fl).1 FU_FIRMWARE_FLAG_DONE_PARSE =
        fu_firmware_has_flag a FU_FIRMWARE_FLAG_DONE_PARSE) :
    fu_firmware_has_flag (parseAfterChecks cls s2 stream off2 flags).1
      FU_FIRMWARE_FLAG_DONE_PARSE = true := by
  have h4 : ∀ t : FuFirmware, fu_firmware_has_flag t FU_FIRMWARE_FLAG_DONE_PARSE = true →
      fu_firmware_has_flag
        (if cls.check_compatible then
          fu_firmware_add_flag t FU_FIRMWARE_FLAG_HAS_CHECK_COMPATIBLE
        else t) FU_FIRMWARE_FLAG_DONE_PARSE = true := by
    intro t ht
    split
    · rw [hasFlag_done_add_hcc]; exact ht
    · exact ht
  have h5 : ∀ (t : FuFirmware) (b : List Nat),
      fu_firmware_has_flag t FU_FIRMWARE_FLAG_DONE_PARSE = true →
      fu_firmware_has_flag
        (if 0 < flags &&& FU_FIRMWARE_PARSE_FLAG_CACHE_BLOB then
          fu_firmware_set_bytes t b else t) FU_FIRMWARE_FLAG_DONE_PARSE = true := by
    intro t b ht
    split
    · unfold fu_firmware_has_flag
      rw [setBytes_flags]
      exact ht
    · exact ht
  have h6 : ∀ (t : FuFirmware) (st : List Nat),
      fu_firmware_has_flag t FU_FIRMWARE_FLAG_DONE_PARSE = true →
      fu_firmware_has_flag
        (if 0 < flags &&& FU_FIRMWARE_PARSE_FLAG_CACHE_STREAM then
          t.withData (fun d => { d with stream := some st }) else t)
        FU_FIRMWARE_FLAG_DONE_PARSE = true := by
    intro t st ht
    split
    · simpa [fu_firmware_has_flag] using ht
    · exact ht
  have htail : ∀ (t : FuFirmware) (pst : List Nat),
      fu_firmware_has_flag t FU_FIRMWARE_FLAG_DONE_PARSE = true →
      fu_firmware_has_flag (fu_firmware_parse_tail cls t pst flags stream.length).1
        FU_FIRMWARE_FLAG_DONE_PARSE = true := by
    intro t pst ht
    unfold fu_firmware_parse_tail
    cases hph : cls.parseHook with
    | some pa =>
      dsimp only
      rw [hpar pa hph t pst flags]
      exact ht
    | none =>
      dsimp only
      split <;> exact ht
  have hrest : ∀ (t : FuFirmware) (pst : List Nat),
      fu_firmware_has_flag t FU_FIRMWARE_FLAG_DONE_PARSE = true →
      fu_firmware_has_flag
        (match cls.tokenize with
          | some tok =>
            match tok t pst flags with
            | (s7, Except.error e) => (s7, Except.error e)
            | (s7, Except.ok _) => fu_firmware_parse_tail cls s7 pst flags stream.length
          | none => fu_firmware_parse_tail cls t pst flags stream.length).1
        FU_FIRMWARE_FLAG_DONE_PARSE = true := by
    intro t pst ht
    cases htk : cls.tokenize with
    | some tok =>
      dsimp only
      rcases htr : tok t pst flags with ⟨s7, r7⟩
      have h7 : fu_firmware_has_flag s7 FU_FIRMWARE_FLAG_DONE_PARSE = true := by
        have hp := htok tok htk t pst flags
        rw [htr] at hp
        rw [show (s7, r7).1 = s7 from rfl] at hp
        rw [hp]
        exact ht
      cases r7 with
      | error e => exact h7
      | ok u => exact htail s7 pst h7
    | none =>
      dsimp only
      exact htail t pst ht
  simp only [parseAfterChecks]
  exact hrest _ _ (h6 _ _ (h5 _ _ (h4 _ (hasFlag_add_done s2))))

/-- Claim C4: a parse on a node whose done-parse flag is set fails with
NotSupported ("cannot be reused"); the flag is set exactly when the early
checks (reuse, size, validation, zero-size, size_max) pass, before the
subclass tokenize/parse hooks run, so a second parse fails even when the
first parse failed inside a hook, while a parse rejected by an early check
leaves the flag clear.  The two hook hypotheses say the subclass hooks do
not tamper with the done-parse bit. -/
theorem claim_C4 :
    ∀ (cls : FuFirmwareClass) (s : FuFirmware) (stream : List Nat) (offset flags : Nat),
      (∀ tok, cls.tokenize = some tok → ∀ a st fl,
        fu_firmware_has_flag (tok a st fl).1 FU_FIRMWARE_FLAG_DONE_PARSE =
          fu_firmware_has_flag a FU_FIRMWARE_FLAG_DONE_PARSE) →
      (∀ pa, cls.parseHook = some pa → ∀ a st fl,
        fu_firmware_has_flag (pa a st fl).1 FU_FIRMWARE_FLAG_DONE_PARSE =
          fu_firmware_has_flag a FU_FIRMWARE_FLAG_DONE_PARSE) →
      (fu_firmware_has_flag s FU_FIRMWARE_FLAG_DONE_PARSE = true →
        fu_firmware_parse_stream cls s stream offset flags =
          (s, .error ⟨.notSupported, "firmware object cannot be reused"⟩)) ∧
        (fu_firmware_has_flag (fu_firmware_parse_stream cls s stream offset flags).1
            FU_FIRMWARE_FLAG_DONE_PARSE = true ↔
          (fu_firmware_has_flag s FU_FIRMWARE_FLAG_DONE_PARSE = true ∨
            parseEarlyOk cls s stream offset flags)) ∧
        (parseEarlyOk cls s stream offset flags →
          (fu_firmware_parse_stream cls
              (fu_firmware_parse_stream cls s stream offset flags).1 stream offset
              flags).2 =
            .error ⟨.notSupported, "firmware object cannot be reused"⟩) := by
  intro cls s stream offset flags htok hpar
  have hreuse : ∀ t : FuFirmware,
      fu_firmware_has_flag t FU_FIRMWARE_FLAG_DONE_PARSE = true →
      fu_firmware_parse_stream cls t stream offset flags =
        (t, .error ⟨.notSupported, "firmware object cannot be reused"⟩) := by
    intro t ht
    unfold fu_firmware_parse_stream
    rw [if_pos ht]
  have hcore : fu_firmware_has_flag (fu_firmware_parse_stream cls s stream offset flags).1
      FU_FIRMWARE_FLAG_DONE_PARSE = true ↔
      (fu_firmware_has_flag s FU_FIRMWARE_FLAG_DONE_PARSE = true ∨
        parseEarlyOk cls s stream offset flags) := by
    by_cases h1 : fu_firmware_has_flag s FU_FIRMWARE_FLAG_DONE_PARSE = true
    · rw [hreuse s h1]
      simp [h1]
    · have h1f : fu_firmware_has_flag s FU_FIRMWARE_FLAG_DONE_PARSE = false := by
        simpa using h1
      have hflag_eq : ∀ t : FuFirmware, t.data.flags = s.data.flags →
          fu_firmware_has_flag t FU_FIRMWARE_FLAG_DONE_PARSE = false := by
        intro t hEq
        unfold fu_firmware_has_flag at h1f ⊢
        rw [hEq]
        exact h1f
      unfold fu_firmware_parse_stream
      rw [if_neg (by simp [h1f])]
      by_cases h2 : stream.length ≤ offset
      · rw [if_pos h2]
        refine iff_of_false (by simp [h1f]) ?_
        rintro (hx | ⟨_, hlt, _⟩)
        · exact absurd hx (by simp [h1f])
        · omega
      · rw [if_neg h2]
        rcases hv : fu_firmware_validate_for_offset cls s stream offset flags with ⟨s1, r1⟩
        have hs1flags : s1.data.flags = s.data.flags := by
          have h := validateForOffset_flags cls s stream offset flags
          rw [hv] at h
          exact h
        have hs1szmax : s1.data.size_max = s.data.size_max := by
          have h := validateForOffset_size_max cls s stream offset flags
          rw [hv] at h
          exact h
        cases r1 with
        | error e =>
          dsimp only
          refine iff_of_false (by simp [hflag_eq s1 hs1flags]) ?_
          rintro (hx | ⟨_, _, off2, hok, _⟩)
          · exact absurd hx (by simp [h1f])
          · rw [hv] at hok
            simp at hok
        | ok off2 =>
          dsimp only
          by_cases h3 : stream.length - off2 = 0
          · rw [if_pos h3]
            have hfl : fu_firmware_has_flag (s1.withData fun d =>
                { d with streamsz := stream.length - off2 })
                FU_FIRMWARE_FLAG_DONE_PARSE = false :=
              hflag_eq _ (by simp [hs1flags])
            refine iff_of_false (by simp [hfl]) ?_
            rintro (hx | ⟨_, _, off2x, hok, hne0, _⟩)
            · exact absurd hx (by simp [h1f])
            · rw [hv] at hok
              simp at hok
              subst hok
              exact hne0 h3
          · rw [if_neg h3]
            by_cases h4 : 0 < s.data.size_max ∧ s.data.size_max < stream.length - off2
            · rw [if_pos (by simpa [hs1szmax] using h4)]
              have hfl : fu_firmware_has_flag (s1.withData fun d =>
                  { d with streamsz := stream.length - off2 })
                  FU_FIRMWARE_FLAG_DONE_PARSE = false :=
                hflag_eq _ (by simp [hs1flags])
              refine iff_of_false (by simp [hfl]) ?_
              rintro (hx | ⟨_, _, off2x, hok, _, hmax⟩)
              · exact absurd hx (by simp [h1f])
              · rw [hv] at hok
                simp at hok
                subst hok
                exact hmax h4
            · rw [if_neg (by simpa [hs1szmax] using h4)]
              exact iff_of_true
                (parseAfterChecks_done cls _ stream off2 flags htok hpar)
                (Or.inr ⟨h1f, by omega, off2, by rw [hv], h3, h4⟩)
  refine ⟨fun hx => hreuse s hx, hcore, ?_⟩
  intro hearly
  have hP1 := hcore.mpr (Or.inr hearly)
  rw [hreuse _ hP1]

/-- A format class whose parse hook always fails without touching flags. -/
def c4class : FuFirmwareClass :=
  { parseHook := some fun a _ _ => (a, .error ⟨.invalidFile, "subclass parse failed"⟩) }

theorem claim_C4_witness :
    (fu_firmware_parse_stream c4class
        (fu_firmware_parse_stream c4class fu_firmware_new [1, 2, 3] 0 0).1 [1, 2, 3] 0
        0).2 =
      .error ⟨.notSupported, "firmware object cannot be reused"⟩ :=
  (claim_C4 c4class fu_firmware_new [1, 2, 3] 0 0
      (fun tok h => Option.noConfusion h)
      (fun pa h => by
        injection h with h2
        subst h2
        intro a st fl
        rfl)).2.2
    ⟨rfl, by decide, 0, rfl, by decide, by decide⟩

/-! ### Claim C8: the probe chain -/

theorem newFromGtypes_ne_nil (stream : List Nat) (offset flags : Nat)
    (l : List FuFirmwareClass) (hl : l ≠ []) :
    fu_firmware_new_from_gtypes l stream offset flags =
      newFromGtypesLoop stream offset flags l none := by
  cases l with
  | nil => exact absurd rfl hl
  | cons x xs => rfl

theorem loop_all_fail (stream : List Nat) (offset flags : Nat) :
    ∀ (l : List FuFirmwareClass) (a0 : GErr),
      (∀ c ∈ l, ∃ e,
        (fu_firmware_parse_stream c fu_firmware_new stream offset flags).2 = .error e) →
      ∃ efin, newFromGtypesLoop stream offset flags l (some a0) = .error efin ∧
        strContains efin.message a0.message ∧
        ∀ c ∈ l, ∀ ec,
          (fu_firmware_parse_stream c fu_firmware_new stream offset flags).2 = .error ec →
            strContains efin.message ec.message := by
  intro l
  induction l with
  | nil =>
    intro a0 _
    exact ⟨a0, rfl, strContains_refl _, by simp⟩
  | cons c rest ih =>
    intro a0 hall
    obtain ⟨ec, hec⟩ := hall c (List.mem_cons_self c rest)
    rcases hp : fu_firmware_parse_stream c fu_firmware_new stream offset flags with ⟨sc, rc⟩
    rw [hp] at hec
    simp only [Prod.snd] at hec
    subst hec
    obtain ⟨efin, hrun, hcont, hall2⟩ :=
      ih ⟨a0.code, ec.message ++ ": " ++ a0.message⟩
        (fun c2 h2 => hall c2 (List.mem_cons_of_mem c h2))
    refine ⟨efin, ?_, ?_, ?_⟩
    · unfold newFromGtypesLoop
      rw [hp]
      exact hrun
    · exact strContains_trans hcont (strContains_append_left (ec.message ++ ": ") a0.message)
    · intro c2 h2 ec2 hec2
      rcases List.mem_cons.1 h2 with h2 | h2
      · subst h2
        rw [hp] at hec2
        simp only [Prod.snd] at hec2
        injection hec2 with hec2
        subst hec2
        exact strContains_trans hcont
          (strContains_trans
            (strContains_append_right (ec.message ++ ": ") a0.message)
            (strContains_append_right ec.message ": "))
      · exact hall2 c2 h2 ec2 hec2

theorem loop_first_ok (stream : List Nat) (offset flags : Nat)
    (c : FuFirmwareClass) (post : List FuFirmwareClass) (sres : FuFirmware)
    (hok : fu_firmware_parse_stream c fu_firmware_new stream offset flags = (sres, .ok ())) :
    ∀ (pre : List FuFirmwareClass) (acc : Option GErr),
      (∀ c2 ∈ pre, ∃ e,
        (fu_firmware_parse_stream c2 fu_firmware_new stream offset flags).2 = .error e) →
      newFromGtypesLoop stream offset flags (pre ++ c :: post) acc = .ok sres := by
  intro pre
  induction pre with
  | nil =>
    intro acc _
    show newFromGtypesLoop stream offset flags (c :: post) acc = .ok sres
    unfold newFromGtypesLoop
    rw [hok]
  | cons d ds ih =>
    intro acc hfail
    obtain ⟨ed, hed⟩ := hfail d (List.mem_cons_self d ds)
    rcases hp : fu_firmware_parse_stream d fu_firmware_new stream offset flags with ⟨sd, rd⟩
    rw [hp] at hed
    simp only [Prod.snd] at hed
    subst hed
    show newFromGtypesLoop stream offset flags (d :: (ds ++ c :: post)) acc = .ok sres
    unfold newFromGtypesLoop
    rw [hp]
    exact ih _ (fun c2 h2 => hfail c2 (List.mem_cons_of_mem d h2))

/-- Claim C8: the probe chain fails with NothingToDo on an empty candidate
list; otherwise it returns the firmware produced by the first candidate
whose full parse pipeline succeeds (later candidates untried); and when
every candidate fails it returns an aggregated error whose text contains
every candidate's failure message. -/
theorem claim_C8 :
    (∀ (stream : List Nat) (offset flags : Nat),
        fu_firmware_new_from_gtypes [] stream offset flags =
          .error ⟨.nothingToDo, "no GTypes specified"⟩) ∧
      (∀ (stream : List Nat) (offset flags : Nat) (pre : List FuFirmwareClass)
          (c : FuFirmwareClass) (post : List FuFirmwareClass) (sres : FuFirmware),
        (∀ c2 ∈ pre, ∃ e,
          (fu_firmware_parse_stream c2 fu_firmware_new stream offset flags).2 =
            .error e) →
        fu_firmware_parse_stream c fu_firmware_new stream offset flags = (sres, .ok ()) →
        fu_firmware_new_from_gtypes (pre ++ c :: post) stream offset flags = .ok sres) ∧
      (∀ (stream : List Nat) (offset flags : Nat) (gtypes : List FuFirmwareClass),
        gtypes ≠ [] →
        (∀ c ∈ gtypes, ∃ e,
          (fu_firmware_parse_stream c fu_firmware_new stream offset flags).2 =
            .error e) →
        ∃ efin, fu_firmware_new_from_gtypes gtypes stream offset flags = .error efin ∧
          ∀ c ∈ gtypes, ∀ ec,
            (fu_firmware_parse_stream c fu_firmware_new stream offset flags).2 =
              .error ec →
              strContains efin.message ec.message) := by
  refine ⟨fun stream offset flags => rfl, ?_, ?_⟩
  · intro stream offset flags pre c post sres hfail hok
    rw [newFromGtypes_ne_nil stream offset flags _ (by cases pre <;> simp)]
    exact loop_first_ok stream offset flags c post sres hok pre none hfail
  · intro stream offset flags gtypes hne hall
    cases gtypes with
    | nil => exact absurd rfl hne
    | cons c rest =>
      obtain ⟨ec, hec⟩ := hall c (List.mem_cons_self c rest)
      rcases hp : fu_firmware_parse_stream c fu_firmware_new stream offset flags with ⟨sc, rc⟩
      rw [hp] at hec
      simp only [Prod.snd] at hec
      subst hec
      obtain ⟨efin, hrun, hcont, hall2⟩ :=
        loop_all_fail stream offset flags rest ec
          (fun c2 h2 => hall c2 (List.mem_cons_of_mem c h2))
      refine ⟨efin, ?_, ?_⟩
      · rw [newFromGtypes_ne_nil stream offset flags _ (by simp)]
        unfold newFromGtypesLoop
        rw [hp]
        exact hrun
      · intro c2 h2 ec2 hec2
        rcases List.mem_cons.1 h2 with h2 | h2
        · subst h2
          rw [hp] at hec2
          simp only [Prod.snd] at hec2
          injection hec2 with hec2
          subst hec2
          exact hcont
        · exact hall2 c2 h2 ec2 hec2

/-- A format class whose parse hook always fails with the given message. -/
def c8fail (m : String) : FuFirmwareClass :=
  { parseHook := some fun a _ _ => (a, .error ⟨.invalidFile, m⟩) }

theorem claim_C8_witness :
    (fu_firmware_new_from_gtypes [c8fail "m1", rawFirmwareClass, c8fail "m3"]
        [1, 2, 3, 4] 0 0 =
      .ok (fu_firmware_parse_stream rawFirmwareClass fu_firmware_new [1, 2, 3, 4] 0 0).1) ∧
      (∃ efin, fu_firmware_new_from_gtypes [c8fail "m1", c8fail "m2"] [1, 2, 3, 4] 0 0 =
          .error efin ∧
        ∀ c ∈ [c8fail "m1", c8fail "m2"], ∀ ec,
          (fu_firmware_parse_stream c fu_firmware_new [1, 2, 3, 4] 0 0).2 = .error ec →
            strContains efin.message ec.message) :=
  ⟨claim_C8.2.1 [1, 2, 3, 4] 0 0 [c8fail "m1"] rawFirmwareClass [c8fail "m3"]
      (fu_firmware_parse_stream rawFirmwareClass fu_firmware_new [1, 2, 3, 4] 0 0).1
      (by
        intro c2 h2
        rw [List.mem_singleton] at h2
        subst h2
        exact ⟨⟨.invalidFile, "m1"⟩, rfl⟩)
      rfl,
    claim_C8.2.2 [1, 2, 3, 4] 0 0 [c8fail "m1", c8fail "m2"] (by simp)
      (by
        intro c2 h2
        rcases List.mem_cons.1 h2 with h2 | h2
        · subst h2
          exact ⟨⟨.invalidFile, "m1"⟩, rfl⟩
        · rw [List.mem_singleton] at h2
          subst h2
          exact ⟨⟨.invalidFile, "m2"⟩, rfl⟩)⟩

end FwupdSpec
